import Mathlib

/-!
# Verification of `arcgis-rest-feature-service/src/features.ts`

A shallow embedding of the five exported functions of the module
(`getFeature`, `queryFeatures`, `addFeatures`, `updateFeatures`,
`deleteFeatures`) and proofs about their behaviour.

JavaScript objects with string keys are modelled as ordered association
lists (`Obj`): property write updates an existing binding in place or
appends a new one, property read returns the first binding.  Because the
source functions mutate a nested `params` object that may be shared with
the caller (`options.params.features = ...` writes through the reference
obtained from the spread `{params: {}, ...requestOptions}`), the `params`
objects live in an explicit heap (`Store`); an options record holds a
reference (index) into the store, and aliasing between the caller's
`params` and the transmitted `params` is visible in the model.

Promises are modelled by their settled outcome: `Except ε Obj` is the
transport collaborator's outcome (rejection value or parsed payload), and
each function's result is a function of that outcome, mirroring how the
source either returns `request(...)` directly or chains one `.then`.
-/

namespace Features

/-- JSON-like runtime values carried in parameter objects and payloads. -/
inductive JValue where
  | null : JValue
  | bool : Bool → JValue
  | num : Int → JValue
  | str : String → JValue
  | arr : List JValue → JValue
  | obj : List (String × JValue) → JValue
deriving Repr

/-- A JavaScript object: ordered list of key/value bindings, keys unique
by construction of `objSet`. -/
abbrev Obj := List (String × JValue)

/-- JS property read: the binding for `k`, if any. -/
def objGet : Obj → String → Option JValue
  | [], _ => none
  | (k', v) :: rest, k => if k' = k then some v else objGet rest k

/-- JS property write: update an existing binding in place, else append. -/
def objSet : Obj → String → JValue → Obj
  | [], k, v => [(k, v)]
  | (k', v') :: rest, k, v =>
      if k' = k then (k, v) :: rest else (k', v') :: objSet rest k v

/-- JS truthiness of a value (`!v` is `false` exactly when `truthy v`). -/
def truthy : JValue → Bool
  | .null => false
  | .bool b => b
  | .num n => n != 0
  | .str s => s != ""
  | .arr _ => true
  | .obj _ => true

/-- Truthiness of a property-read result: a missing property reads as
`undefined`, which is falsy. -/
def truthyOpt : Option JValue → Bool
  | none => false
  | some v => truthy v

/-- The heap of `params` objects; a reference is an index into it. -/
abbrev Store := List Obj

/-- Allocate a fresh object (`params: {}` in the defaulting spread),
returning the extended store and the new reference. -/
def alloc (st : Store) (o : Obj) : Store × Nat :=
  (st ++ [o], st.length)

/-- Dereference: the object a reference points to. -/
def getObj (st : Store) (r : Nat) : Obj :=
  st.getD r []

/-- Property write through a reference: `params.k = v` mutates the heap
object every alias sees. -/
def setKey (st : Store) (r : Nat) (k : String) (v : JValue) : Store :=
  st.set r (objSet (getObj st r) k v)

/-- Modelled from the spec: the `request(url, options)` transport
collaborator of `@esri/arcgis-rest-request` (not part of `src/`).  The
spec describes `options` as carrying an HTTP-method hint and states that
the wire shape of add/update/delete is POST while the edit functions set
no method themselves, so the collaborator's effective method defaults to
POST when the options carry none. -/
def effectiveHttpMethod (httpMethod : Option String) : String :=
  httpMethod.getD "POST"

/-! ## `getFeature` -/

/-- Interface `IFeatureRequestOptions` (the fields the module reads or forwards). -/
structure IFeatureRequestOptions where
  url : String
  id : Int
  httpMethod : Option String := none
  params : Option Nat := none

/-- The request handed to the transport by `getFeature`: target URL and
the merged options. -/
structure GetFeatureRequest where
  url : String
  options : IFeatureRequestOptions

/-- Source:
```
const url = `${requestOptions.url}/${requestOptions.id}`;
const options = { ...{ httpMethod: "GET" }, ...requestOptions };
return request(url, options).then((response) => response.feature);
```
The spread puts the `httpMethod: "GET"` default first, so a
caller-supplied method wins.
-/
def getFeature (ro : IFeatureRequestOptions) : GetFeatureRequest :=
  { url := ro.url ++ "/" ++ toString ro.id
    options := { ro with httpMethod := some (ro.httpMethod.getD "GET") } }

/-- The `.then` continuation of `getFeature`: unwrap `response.feature`
(`undefined`, i.e. `none`, when the key is missing); a rejection passes
through the `.then` unchanged. -/
def getFeatureResult {ε : Type} (tr : Except ε Obj) : Except ε (Option JValue) :=
  tr.map (fun response => objGet response "feature")

/-! ## `queryFeatures` -/

/-- Interface `IQueryFeaturesRequestOptions` (the fields the module reads or
forwards); `params` is a reference into the store when the caller supplies one. -/
structure IQueryFeaturesRequestOptions where
  url : String
  params : Option Nat := none
  httpMethod : Option String := none

/-- Merged options handed to the transport by `queryFeatures`: `params`
is now always a reference. -/
structure QueryFeaturesOptions where
  url : String
  params : Nat
  httpMethod : Option String

structure QueryFeaturesRequest where
  url : String
  options : QueryFeaturesOptions

/-- Source:
```
const options = { ...{ params: {}, httpMethod: "GET" }, ...requestOptions };
if (!options.params.where) { options.params.where = "1=1"; }
if (!options.params.outFields) { options.params.outFields = "*"; }
return request(`${requestOptions.url}/query`, options);
```
The spread keeps the caller's `params` reference when present (only the
top level is copied), so the default writes mutate the caller's object.
-/
def queryFeatures (st : Store) (ro : IQueryFeaturesRequestOptions) :
    Store × QueryFeaturesRequest :=
  let stp : Store × Nat :=
    match ro.params with
    | some r => (st, r)
    | none => alloc st []
  let st1 := stp.1
  let pref := stp.2
  let st2 :=
    if truthyOpt (objGet (getObj st1 pref) "where") then st1
    else setKey st1 pref "where" (.str "1=1")
  let st3 :=
    if truthyOpt (objGet (getObj st2 pref) "outFields") then st2
    else setKey st2 pref "outFields" (.str "*")
  (st3,
   { url := ro.url ++ "/query"
     options :=
       { url := ro.url
         params := pref
         httpMethod := some (ro.httpMethod.getD "GET") } })

/-- The two default-setting statements of `queryFeatures` in isolation,
acting on the `params` reference `r` (proof helper: `queryFeatures`
reduces to this once the `params` defaulting branch is fixed). -/
def queryDefaultsCore (st : Store) (r : Nat) : Store :=
  let st1 :=
    if truthyOpt (objGet (getObj st r) "where") then st
    else setKey st r "where" (.str "1=1")
  if truthyOpt (objGet (getObj st1 r) "outFields") then st1
  else setKey st1 r "outFields" (.str "*")

/-- The function `queryFeatures` returns `request(...)` directly: the transport's
outcome is the function's outcome. -/
def queryFeaturesResult {ε : Type} (tr : Except ε Obj) : Except ε Obj :=
  tr

/-! ## `addFeatures` -/

/-- Interface `IAddFeaturesRequestOptions`: `adds` is the array of JSON features. -/
structure IAddFeaturesRequestOptions where
  url : String
  adds : List JValue
  params : Option Nat := none
  httpMethod : Option String := none

/-- Merged options handed to the transport by `addFeatures`. -/
structure AddFeaturesOptions where
  url : String
  adds : List JValue
  params : Nat
  httpMethod : Option String

structure AddFeaturesRequest where
  url : String
  options : AddFeaturesOptions

/-- Source:
```
const url = `${requestOptions.url}/addFeatures`;
const options = { params: {}, ...requestOptions };
options.params.features = requestOptions.adds;
return request(url, options);
```
The spread copies the top level only, so when the caller supplied
`params` the write of `features` goes through the shared reference.  No
`httpMethod` is set here.
-/
def addFeatures (st : Store) (ro : IAddFeaturesRequestOptions) :
    Store × AddFeaturesRequest :=
  let stp : Store × Nat :=
    match ro.params with
    | some r => (st, r)
    | none => alloc st []
  let st' := setKey stp.1 stp.2 "features" (.arr ro.adds)
  (st',
   { url := ro.url ++ "/addFeatures"
     options :=
       { url := ro.url
         adds := ro.adds
         params := stp.2
         httpMethod := ro.httpMethod } })

/-- The function `addFeatures` returns `request(...)` directly. -/
def addFeaturesResult {ε : Type} (tr : Except ε Obj) : Except ε Obj :=
  tr

/-! ## `updateFeatures` -/

/-- Interface `IUpdateFeaturesRequestOptions`: `updates` is the array of JSON
features. -/
structure IUpdateFeaturesRequestOptions where
  url : String
  updates : List JValue
  params : Option Nat := none
  httpMethod : Option String := none

/-- Merged options handed to the transport by `updateFeatures`. -/
structure UpdateFeaturesOptions where
  url : String
  updates : List JValue
  params : Nat
  httpMethod : Option String

structure UpdateFeaturesRequest where
  url : String
  options : UpdateFeaturesOptions

/-- Source:
```
const url = `${requestOptions.url}/updateFeatures`;
const options = { params: {}, ...requestOptions };
options.params.features = requestOptions.updates;
return request(url, options);
```
-/
def updateFeatures (st : Store) (ro : IUpdateFeaturesRequestOptions) :
    Store × UpdateFeaturesRequest :=
  let stp : Store × Nat :=
    match ro.params with
    | some r => (st, r)
    | none => alloc st []
  let st' := setKey stp.1 stp.2 "features" (.arr ro.updates)
  (st',
   { url := ro.url ++ "/updateFeatures"
     options :=
       { url := ro.url
         updates := ro.updates
         params := stp.2
         httpMethod := ro.httpMethod } })

/-- The function `updateFeatures` returns `request(...)` directly. -/
def updateFeaturesResult {ε : Type} (tr : Except ε Obj) : Except ε Obj :=
  tr

/-! ## `deleteFeatures` -/

/-- Interface `IDeleteFeaturesRequestOptions`: `deletes` is the array of
numeric object IDs. -/
structure IDeleteFeaturesRequestOptions where
  url : String
  deletes : List Int
  params : Option Nat := none
  httpMethod : Option String := none

/-- Merged options handed to the transport by `deleteFeatures`. -/
structure DeleteFeaturesOptions where
  url : String
  deletes : List Int
  params : Nat
  httpMethod : Option String

structure DeleteFeaturesRequest where
  url : String
  options : DeleteFeaturesOptions

/-- Source:
```
const url = `${requestOptions.url}/deleteFeatures`;
const options = { params: {}, ...requestOptions };
options.params.objectIds = requestOptions.deletes;
return request(url, options);
```
-/
def deleteFeatures (st : Store) (ro : IDeleteFeaturesRequestOptions) :
    Store × DeleteFeaturesRequest :=
  let stp : Store × Nat :=
    match ro.params with
    | some r => (st, r)
    | none => alloc st []
  let st' := setKey stp.1 stp.2 "objectIds" (.arr (ro.deletes.map .num))
  (st',
   { url := ro.url ++ "/deleteFeatures"
     options :=
       { url := ro.url
         deletes := ro.deletes
         params := stp.2
         httpMethod := ro.httpMethod } })

/-- The function `deleteFeatures` returns `request(...)` directly. -/
def deleteFeaturesResult {ε : Type} (tr : Except ε Obj) : Except ε Obj :=
  tr

/-! ## Basic lemmas about the object and heap model -/

theorem objGet_objSet_self (o : Obj) (k : String) (v : JValue) :
    objGet (objSet o k v) k = some v := by
  induction o with
  | nil => simp [objSet, objGet]
  | cons hd tl ih =>
      obtain ⟨a, b⟩ := hd
      by_cases h : a = k
      · subst h
        simp [objSet, objGet]
      · simp [objSet, objGet, h, ih]

theorem objGet_objSet_ne (o : Obj) (k k' : String) (v : JValue)
    (hne : k' ≠ k) : objGet (objSet o k v) k' = objGet o k' := by
  have hkk' : ¬(k = k') := fun e => hne (Eq.symm e)
  induction o with
  | nil => simp [objSet, objGet, hkk']
  | cons hd tl ih =>
      obtain ⟨a, b⟩ := hd
      by_cases h : a = k
      · subst h
        simp [objSet, objGet, hkk']
      · simp [objSet, objGet, h, ih]

theorem getObj_setKey_self (st : Store) (r : Nat) (k : String) (v : JValue)
    (hr : r < st.length) :
    getObj (setKey st r k v) r = objSet (getObj st r) k v := by
  simp [getObj, setKey, List.getD, List.getElem?_set_self hr]

theorem getObj_setKey_ne (st : Store) (r r' : Nat) (k : String) (v : JValue)
    (hne : r' ≠ r) : getObj (setKey st r k v) r' = getObj st r' := by
  simp [getObj, setKey, List.getD, List.getElem?_set_ne (Ne.symm hne)]

theorem getObj_alloc (st : Store) (o : Obj) :
    getObj (alloc st o).1 (alloc st o).2 = o := by
  simp [getObj, alloc, List.getD]

theorem getObj_append_self (st : Store) (o : Obj) :
    getObj (st ++ [o]) st.length = o :=
  getObj_alloc st o

theorem length_setKey (st : Store) (r : Nat) (k : String) (v : JValue) :
    (setKey st r k v).length = st.length := by
  simp [setKey]

/-! ## Reduction lemmas for `queryFeatures` -/

theorem queryFeatures_store_some (st : Store) (ro : IQueryFeaturesRequestOptions)
    (r : Nat) (hp : ro.params = some r) :
    (queryFeatures st ro).1 = queryDefaultsCore st r := by
  simp [queryFeatures, queryDefaultsCore, hp]

theorem queryFeatures_store_none (st : Store) (ro : IQueryFeaturesRequestOptions)
    (hp : ro.params = none) :
    (queryFeatures st ro).1 = queryDefaultsCore (st ++ [[]]) st.length := by
  simp [queryFeatures, queryDefaultsCore, hp, alloc]

theorem queryFeatures_params_some (st : Store) (ro : IQueryFeaturesRequestOptions)
    (r : Nat) (hp : ro.params = some r) :
    (queryFeatures st ro).2.options.params = r := by
  simp [queryFeatures, hp]

theorem queryFeatures_params_none (st : Store) (ro : IQueryFeaturesRequestOptions)
    (hp : ro.params = none) :
    (queryFeatures st ro).2.options.params = st.length := by
  simp [queryFeatures, hp, alloc]

/-- What the defaulting statements leave in the `params` object they act
on: a truthy `where`/`outFields` is preserved, a falsy or missing one is
replaced by the default. -/
theorem queryDefaultsCore_spec (st : Store) (r : Nat) (hr : r < st.length) :
    objGet (getObj (queryDefaultsCore st r) r) "where"
      = (if truthyOpt (objGet (getObj st r) "where") = true
         then objGet (getObj st r) "where" else some (JValue.str "1=1")) ∧
    objGet (getObj (queryDefaultsCore st r) r) "outFields"
      = (if truthyOpt (objGet (getObj st r) "outFields") = true
         then objGet (getObj st r) "outFields" else some (JValue.str "*")) := by
  have hwo : ("where" : String) ≠ "outFields" := by decide
  have how : ("outFields" : String) ≠ "where" := by decide
  by_cases hW : truthyOpt (objGet (getObj st r) "where") = true
  · by_cases hOF : truthyOpt (objGet (getObj st r) "outFields") = true
    · have h1 : queryDefaultsCore st r = st := by
        simp [queryDefaultsCore, hW, hOF]
      rw [h1]
      simp [hW, hOF]
    · have h1 : queryDefaultsCore st r = setKey st r "outFields" (JValue.str "*") := by
        simp [queryDefaultsCore, hW, hOF]
      rw [h1, getObj_setKey_self st r _ _ hr]
      constructor
      · rw [objGet_objSet_ne _ _ _ _ hwo]
        simp [hW]
      · rw [objGet_objSet_self]
        simp [hOF]
  · have hr2 : r < (setKey st r "where" (JValue.str "1=1")).length := by
      rw [length_setKey]; exact hr
    have hof2 : objGet (getObj (setKey st r "where" (JValue.str "1=1")) r) "outFields"
        = objGet (getObj st r) "outFields" := by
      rw [getObj_setKey_self st r _ _ hr, objGet_objSet_ne _ _ _ _ how]
    by_cases hOF : truthyOpt (objGet (getObj st r) "outFields") = true
    · have h1 : queryDefaultsCore st r = setKey st r "where" (JValue.str "1=1") := by
        simp [queryDefaultsCore, hW, hof2, hOF]
      rw [h1, getObj_setKey_self st r _ _ hr]
      constructor
      · rw [objGet_objSet_self]
        simp [hW]
      · rw [objGet_objSet_ne _ _ _ _ how]
        simp [hOF]
    · have h1 : queryDefaultsCore st r
          = setKey (setKey st r "where" (JValue.str "1=1")) r "outFields" (JValue.str "*") := by
        simp [queryDefaultsCore, hW, hof2, hOF]
      rw [h1, getObj_setKey_self _ r _ _ hr2, getObj_setKey_self st r _ _ hr]
      constructor
      · rw [objGet_objSet_ne _ _ _ _ hwo, objGet_objSet_self]
        simp [hW]
      · rw [objGet_objSet_self]
        simp [hOF]

/-! ## Claims -/

/-- C1: for every `addFeatures({url, adds, params})` call with a
caller-supplied `params` mapping, the options handed to `request` carry
`params.features = adds` (a caller-supplied `features` key is
overwritten), while every other key of the caller's `params` is retained
with its original value. -/
theorem addFeatures_injects_features (st : Store)
    (ro : IAddFeaturesRequestOptions) (r : Nat)
    (hp : ro.params = some r) (hr : r < st.length) :
    objGet (getObj (addFeatures st ro).1 (addFeatures st ro).2.options.params)
        "features" = some (JValue.arr ro.adds) ∧
    ∀ k, k ≠ "features" →
      objGet (getObj (addFeatures st ro).1 (addFeatures st ro).2.options.params) k
        = objGet (getObj st r) k := by
  have h1 : (addFeatures st ro).1 = setKey st r "features" (JValue.arr ro.adds) := by
    simp [addFeatures, hp]
  have h2 : (addFeatures st ro).2.options.params = r := by
    simp [addFeatures, hp]
  rw [h1, h2, getObj_setKey_self st r _ _ hr]
  exact ⟨objGet_objSet_self _ _ _, fun k hk => objGet_objSet_ne _ _ _ _ hk⟩

/-- Witness for `addFeatures_injects_features`: caller `params` is
`{features: "X", other: "Y"}` and `adds = ["A"]`; the transmitted
`features` is `["A"]` and `other` keeps its value. -/
theorem addFeatures_injects_features_witness :
    objGet (getObj (addFeatures [[("features", JValue.str "X"), ("other", JValue.str "Y")]]
          { url := "U", adds := [JValue.str "A"], params := some 0 }).1
        (addFeatures [[("features", JValue.str "X"), ("other", JValue.str "Y")]]
          { url := "U", adds := [JValue.str "A"], params := some 0 }).2.options.params)
      "features" = some (JValue.arr [JValue.str "A"]) ∧
    objGet (getObj (addFeatures [[("features", JValue.str "X"), ("other", JValue.str "Y")]]
          { url := "U", adds := [JValue.str "A"], params := some 0 }).1
        (addFeatures [[("features", JValue.str "X"), ("other", JValue.str "Y")]]
          { url := "U", adds := [JValue.str "A"], params := some 0 }).2.options.params)
      "other"
      = objGet (getObj [[("features", JValue.str "X"), ("other", JValue.str "Y")]] 0) "other" := by
  have h := addFeatures_injects_features
      [[("features", JValue.str "X"), ("other", JValue.str "Y")]]
      { url := "U", adds := [JValue.str "A"], params := some 0 } 0 rfl (by decide)
  exact ⟨h.1, h.2 "other" (by decide)⟩

/-- C2 counterexample: the caller's `params` object `{gdbVersion: "a"}`
has no `features` key before the `addFeatures` call, but after the call
the very object the caller passed in carries `features`, so the caller's
`params` is not left unchanged (the nested object is shared, not
shallow-copied). -/
theorem editFeatures_params_not_copied_cex :
    objGet (getObj [[("gdbVersion", JValue.str "a")]] 0) "features" = none ∧
    objGet (getObj (addFeatures [[("gdbVersion", JValue.str "a")]]
          { url := "U", adds := [JValue.null], params := some 0 }).1 0) "features"
      = some (JValue.arr [JValue.null]) ∧
    getObj (addFeatures [[("gdbVersion", JValue.str "a")]]
          { url := "U", adds := [JValue.null], params := some 0 }).1 0
      ≠ getObj [[("gdbVersion", JValue.str "a")]] 0 := by
  refine ⟨rfl, rfl, fun h => ?_⟩
  exact Option.noConfusion (congrArg (fun o => objGet o "features") h)

/-- C2 amended: the spread `{params: {}, ...requestOptions}` copies only
the top level; the nested `params` object is shared with the caller, and
each edit function writes its reserved key (`features` or `objectIds`)
through that shared reference, so the caller's `params` object is mutated
in place (afterwards it equals `objSet` of its old value); only when the
caller supplies no `params` is a fresh record created. -/
theorem editFeatures_mutates_caller_params (st : Store)
    (roA : IAddFeaturesRequestOptions) (roU : IUpdateFeaturesRequestOptions)
    (roD : IDeleteFeaturesRequestOptions) (r : Nat) (hr : r < st.length) :
    (roA.params = some r →
      getObj (addFeatures st roA).1 r
        = objSet (getObj st r) "features" (JValue.arr roA.adds)) ∧
    (roU.params = some r →
      getObj (updateFeatures st roU).1 r
        = objSet (getObj st r) "features" (JValue.arr roU.updates)) ∧
    (roD.params = some r →
      getObj (deleteFeatures st roD).1 r
        = objSet (getObj st r) "objectIds" (JValue.arr (roD.deletes.map JValue.num))) := by
  refine ⟨fun hp => ?_, fun hp => ?_, fun hp => ?_⟩
  · have h1 : (addFeatures st roA).1 = setKey st r "features" (JValue.arr roA.adds) := by
      simp [addFeatures, hp]
    rw [h1, getObj_setKey_self st r _ _ hr]
  · have h1 : (updateFeatures st roU).1 = setKey st r "features" (JValue.arr roU.updates) := by
      simp [updateFeatures, hp]
    rw [h1, getObj_setKey_self st r _ _ hr]
  · have h1 : (deleteFeatures st roD).1
        = setKey st r "objectIds" (JValue.arr (roD.deletes.map JValue.num)) := by
      simp [deleteFeatures, hp]
    rw [h1, getObj_setKey_self st r _ _ hr]

/-- Witness for `editFeatures_mutates_caller_params`: a one-object store,
all three edit functions called with `params` pointing at that object. -/
theorem editFeatures_mutates_caller_params_witness :
    getObj (addFeatures [[("gdbVersion", JValue.str "a")]]
        { url := "U", adds := [JValue.null], params := some 0 }).1 0
      = objSet (getObj [[("gdbVersion", JValue.str "a")]] 0) "features"
          (JValue.arr [JValue.null]) ∧
    getObj (updateFeatures [[("gdbVersion", JValue.str "a")]]
        { url := "U", updates := [JValue.null], params := some 0 }).1 0
      = objSet (getObj [[("gdbVersion", JValue.str "a")]] 0) "features"
          (JValue.arr [JValue.null]) ∧
    getObj (deleteFeatures [[("gdbVersion", JValue.str "a")]]
        { url := "U", deletes := [7], params := some 0 }).1 0
      = objSet (getObj [[("gdbVersion", JValue.str "a")]] 0) "objectIds"
          (JValue.arr [JValue.num 7]) := by
  have h := editFeatures_mutates_caller_params [[("gdbVersion", JValue.str "a")]]
      { url := "U", adds := [JValue.null], params := some 0 }
      { url := "U", updates := [JValue.null], params := some 0 }
      { url := "U", deletes := [7], params := some 0 } 0 (by decide)
  exact ⟨h.1 rfl, h.2.1 rfl, h.2.2 rfl⟩

/-- C3 counterexample: a caller-supplied `httpMethod: "GET"` survives the
spread in `addFeatures`, so the options handed to the transport carry GET
and the effective method is GET — edit operations are not POST
"regardless of the caller's options". -/
theorem editFeatures_httpMethod_override_cex :
    (addFeatures [] { url := "U", adds := [], params := none
                      , httpMethod := some "GET" }).2.options.httpMethod
      = some "GET" ∧
    effectiveHttpMethod
        (addFeatures [] { url := "U", adds := [], params := none
                          , httpMethod := some "GET" }).2.options.httpMethod
      = "GET" :=
  ⟨rfl, rfl⟩

/-- C3 amended: the edit functions set no HTTP method themselves and pass
a caller-supplied one through; when the caller supplies none, the options
handed to the transport carry no method and the transport's default
(POST, modelled from the spec) applies, so edit operations are POST for
every caller that does not override the method. -/
theorem editFeatures_default_post (st : Store)
    (roA : IAddFeaturesRequestOptions) (roU : IUpdateFeaturesRequestOptions)
    (roD : IDeleteFeaturesRequestOptions) :
    (roA.httpMethod = none →
      (addFeatures st roA).2.options.httpMethod = none ∧
      effectiveHttpMethod (addFeatures st roA).2.options.httpMethod = "POST") ∧
    (roU.httpMethod = none →
      (updateFeatures st roU).2.options.httpMethod = none ∧
      effectiveHttpMethod (updateFeatures st roU).2.options.httpMethod = "POST") ∧
    (roD.httpMethod = none →
      (deleteFeatures st roD).2.options.httpMethod = none ∧
      effectiveHttpMethod (deleteFeatures st roD).2.options.httpMethod = "POST") := by
  have hA : (addFeatures st roA).2.options.httpMethod = roA.httpMethod := by
    cases hp : roA.params <;> simp [addFeatures, hp]
  have hU : (updateFeatures st roU).2.options.httpMethod = roU.httpMethod := by
    cases hp : roU.params <;> simp [updateFeatures, hp]
  have hD : (deleteFeatures st roD).2.options.httpMethod = roD.httpMethod := by
    cases hp : roD.params <;> simp [deleteFeatures, hp]
  refine ⟨fun h => ?_, fun h => ?_, fun h => ?_⟩
  · rw [hA, h]; exact ⟨rfl, rfl⟩
  · rw [hU, h]; exact ⟨rfl, rfl⟩
  · rw [hD, h]; exact ⟨rfl, rfl⟩

/-- Witness for `editFeatures_default_post`: the three edit functions
called without an `httpMethod`. -/
theorem editFeatures_default_post_witness :
    effectiveHttpMethod (addFeatures []
        { url := "U", adds := [] }).2.options.httpMethod = "POST" ∧
    effectiveHttpMethod (updateFeatures []
        { url := "U", updates := [] }).2.options.httpMethod = "POST" ∧
    effectiveHttpMethod (deleteFeatures []
        { url := "U", deletes := [] }).2.options.httpMethod = "POST" := by
  have h := editFeatures_default_post [] { url := "U", adds := [] }
      { url := "U", updates := [] } { url := "U", deletes := [] }
  exact ⟨(h.1 rfl).2, (h.2.1 rfl).2, (h.2.2 rfl).2⟩

/-- C4 counterexample: the caller explicitly supplies `where: ""` (a
falsy string) to `queryFeatures`, yet the transmitted `where` is the
default `"1=1"`, so explicitly supplied values are not always transmitted
unchanged: the defaults are applied to falsy values, not only to absent
ones. -/
theorem queryFeatures_falsy_where_overwritten_cex :
    objGet (getObj [[("where", JValue.str "")]] 0) "where" = some (JValue.str "") ∧
    objGet (getObj (queryFeatures [[("where", JValue.str "")]]
          { url := "U", params := some 0 }).1
        (queryFeatures [[("where", JValue.str "")]]
          { url := "U", params := some 0 }).2.options.params) "where"
      = some (JValue.str "1=1") :=
  ⟨rfl, rfl⟩

/-- C4 amended: `queryFeatures` transmits `where = "1=1"` when the
caller's `where` is absent or falsy and `outFields = "*"` when the
caller's `outFields` is absent or falsy; a truthy caller-supplied value
is transmitted unchanged; when `params` is wholly absent both defaults
are transmitted. -/
theorem queryFeatures_where_outFields_defaults (st : Store)
    (ro : IQueryFeaturesRequestOptions) :
    (∀ r, ro.params = some r → r < st.length →
      objGet (getObj (queryFeatures st ro).1
          (queryFeatures st ro).2.options.params) "where"
        = (if truthyOpt (objGet (getObj st r) "where") = true
           then objGet (getObj st r) "where" else some (JValue.str "1=1")) ∧
      objGet (getObj (queryFeatures st ro).1
          (queryFeatures st ro).2.options.params) "outFields"
        = (if truthyOpt (objGet (getObj st r) "outFields") = true
           then objGet (getObj st r) "outFields" else some (JValue.str "*"))) ∧
    (ro.params = none →
      objGet (getObj (queryFeatures st ro).1
          (queryFeatures st ro).2.options.params) "where"
        = some (JValue.str "1=1") ∧
      objGet (getObj (queryFeatures st ro).1
          (queryFeatures st ro).2.options.params) "outFields"
        = some (JValue.str "*")) := by
  constructor
  · intro r hp hr
    rw [queryFeatures_store_some st ro r hp, queryFeatures_params_some st ro r hp]
    exact queryDefaultsCore_spec st r hr
  · intro hp
    rw [queryFeatures_store_none st ro hp, queryFeatures_params_none st ro hp]
    have hr : st.length < (st ++ [[]]).length := by simp
    have h := queryDefaultsCore_spec (st ++ [[]]) st.length hr
    rw [getObj_append_self st []] at h
    simpa [objGet, truthyOpt] using h

/-- Witness for `queryFeatures_where_outFields_defaults`: caller params
`{outFields: "F"}` (no `where`): the transmitted `where` is the default
and the truthy `outFields` is preserved; and a call without `params`
transmits both defaults. -/
theorem queryFeatures_where_outFields_defaults_witness :
    objGet (getObj (queryFeatures [[("outFields", JValue.str "F")]]
          { url := "U", params := some 0 }).1
        (queryFeatures [[("outFields", JValue.str "F")]]
          { url := "U", params := some 0 }).2.options.params) "where"
      = some (JValue.str "1=1") ∧
    objGet (getObj (queryFeatures [[("outFields", JValue.str "F")]]
          { url := "U", params := some 0 }).1
        (queryFeatures [[("outFields", JValue.str "F")]]
          { url := "U", params := some 0 }).2.options.params) "outFields"
      = some (JValue.str "F") ∧
    objGet (getObj (queryFeatures [] { url := "U" }).1
        (queryFeatures [] { url := "U" }).2.options.params) "where"
      = some (JValue.str "1=1") := by
  have h := (queryFeatures_where_outFields_defaults [[("outFields", JValue.str "F")]]
      { url := "U", params := some 0 }).1 0 rfl (by decide)
  have h2 := (queryFeatures_where_outFields_defaults [] { url := "U" }).2 rfl
  exact ⟨h.1, h.2, h2.1⟩

/-- C5: `getFeature` targets the string `url ++ "/" ++ id`, defaults the
method to GET unless the caller overrides it, and resolves with exactly
the `feature` field of the transport's parsed response, discarding all
sibling fields. -/
theorem getFeature_request_spec (ro : IFeatureRequestOptions) :
    (getFeature ro).url = ro.url ++ "/" ++ toString ro.id ∧
    (getFeature ro).options.httpMethod = some (ro.httpMethod.getD "GET") ∧
    ∀ (ε : Type) (resp : Obj),
      getFeatureResult (Except.ok resp : Except ε Obj)
        = Except.ok (objGet resp "feature") :=
  ⟨rfl, rfl, fun _ _ => rfl⟩

/-- C6: `deleteFeatures({url: U, deletes: D})` (no caller `params` or
method override, as in the claim's call shape) issues a POST-style
request — the options carry no method and the transport's spec-modelled
default is POST — to `U ++ "/deleteFeatures"` with transmitted
`objectIds = D`, and returns the transport's response unchanged. -/
theorem deleteFeatures_request_spec (st : Store)
    (ro : IDeleteFeaturesRequestOptions)
    (hp : ro.params = none) (hm : ro.httpMethod = none) :
    (deleteFeatures st ro).2.url = ro.url ++ "/deleteFeatures" ∧
    objGet (getObj (deleteFeatures st ro).1
        (deleteFeatures st ro).2.options.params) "objectIds"
      = some (JValue.arr (ro.deletes.map JValue.num)) ∧
    effectiveHttpMethod (deleteFeatures st ro).2.options.httpMethod = "POST" ∧
    ∀ (ε : Type) (tr : Except ε Obj), deleteFeaturesResult tr = tr := by
  have h1 : (deleteFeatures st ro).1
      = setKey (st ++ [[]]) st.length "objectIds"
          (JValue.arr (ro.deletes.map JValue.num)) := by
    simp [deleteFeatures, hp, alloc]
  have h2 : (deleteFeatures st ro).2.options.params = st.length := by
    simp [deleteFeatures, hp, alloc]
  have h3 : (deleteFeatures st ro).2.url = ro.url ++ "/deleteFeatures" := by
    simp [deleteFeatures, hp]
  have h4 : (deleteFeatures st ro).2.options.httpMethod = ro.httpMethod := by
    simp [deleteFeatures, hp]
  have hr : st.length < (st ++ [[]]).length := by simp
  refine ⟨h3, ?_, ?_, fun _ _ => rfl⟩
  · rw [h1, h2, getObj_setKey_self _ _ _ _ hr, getObj_append_self]
    exact objGet_objSet_self _ _ _
  · rw [h4, hm]
    rfl

/-- Witness for `deleteFeatures_request_spec`: the spec's own example
`deleteFeatures({url: U, deletes: [1,2,3]})`. -/
theorem deleteFeatures_request_spec_witness :
    (deleteFeatures [] { url := "U", deletes := [1, 2, 3] }).2.url
      = "U" ++ "/deleteFeatures" ∧
    objGet (getObj (deleteFeatures [] { url := "U", deletes := [1, 2, 3] }).1
        (deleteFeatures [] { url := "U", deletes := [1, 2, 3] }).2.options.params)
      "objectIds" = some (JValue.arr [JValue.num 1, JValue.num 2, JValue.num 3]) ∧
    effectiveHttpMethod
        (deleteFeatures [] { url := "U", deletes := [1, 2, 3] }).2.options.httpMethod
      = "POST" := by
  have h := deleteFeatures_request_spec [] { url := "U", deletes := [1, 2, 3] } rfl rfl
  exact ⟨h.1, h.2.1, h.2.2.1⟩

/-- C7: `updateFeatures({url, updates, params?})` targets
`url ++ "/updateFeatures"`, the transmitted params carry
`features = updates` (injected the same way `addFeatures` injects
`adds`), and the transport's response is returned unchanged. -/
theorem updateFeatures_request_spec (st : Store)
    (ro : IUpdateFeaturesRequestOptions)
    (hvalid : ∀ r, ro.params = some r → r < st.length) :
    (updateFeatures st ro).2.url = ro.url ++ "/updateFeatures" ∧
    objGet (getObj (updateFeatures st ro).1
        (updateFeatures st ro).2.options.params) "features"
      = some (JValue.arr ro.updates) ∧
    ∀ (ε : Type) (tr : Except ε Obj), updateFeaturesResult tr = tr := by
  cases hp : ro.params with
  | some r =>
      have hr := hvalid r hp
      have h1 : (updateFeatures st ro).1
          = setKey st r "features" (JValue.arr ro.updates) := by
        simp [updateFeatures, hp]
      have h2 : (updateFeatures st ro).2.options.params = r := by
        simp [updateFeatures, hp]
      have h3 : (updateFeatures st ro).2.url = ro.url ++ "/updateFeatures" := by
        simp [updateFeatures, hp]
      refine ⟨h3, ?_, fun _ _ => rfl⟩
      rw [h1, h2, getObj_setKey_self st r _ _ hr]
      exact objGet_objSet_self _ _ _
  | none =>
      have h1 : (updateFeatures st ro).1
          = setKey (st ++ [[]]) st.length "features" (JValue.arr ro.updates) := by
        simp [updateFeatures, hp, alloc]
      have h2 : (updateFeatures st ro).2.options.params = st.length := by
        simp [updateFeatures, hp, alloc]
      have h3 : (updateFeatures st ro).2.url = ro.url ++ "/updateFeatures" := by
        simp [updateFeatures, hp]
      have hr : st.length < (st ++ [[]]).length := by simp
      refine ⟨h3, ?_, fun _ _ => rfl⟩
      rw [h1, h2, getObj_setKey_self _ _ _ _ hr, getObj_append_self]
      exact objGet_objSet_self _ _ _

/-- Witness for `updateFeatures_request_spec`: a call without `params`. -/
theorem updateFeatures_request_spec_witness :
    (updateFeatures [] { url := "U", updates := [JValue.null] }).2.url
      = "U" ++ "/updateFeatures" ∧
    objGet (getObj (updateFeatures [] { url := "U", updates := [JValue.null] }).1
        (updateFeatures [] { url := "U", updates := [JValue.null] }).2.options.params)
      "features" = some (JValue.arr [JValue.null]) := by
  have h := updateFeatures_request_spec [] { url := "U", updates := [JValue.null] }
      (fun r h => Option.noConfusion h)
  exact ⟨h.1, h.2.1⟩

/-- C8: for each of the five functions, a transport rejection with value
`e` is propagated to the caller as the same rejection value `e`,
unmodified: the four edit/query functions return the transport future
directly and `getFeature`'s `.then` passes rejections through. -/
theorem rejection_propagation (ε : Type) (e : ε) :
    getFeatureResult (Except.error e : Except ε Obj) = Except.error e ∧
    queryFeaturesResult (Except.error e : Except ε Obj) = Except.error e ∧
    addFeaturesResult (Except.error e : Except ε Obj) = Except.error e ∧
    updateFeaturesResult (Except.error e : Except ε Obj) = Except.error e ∧
    deleteFeaturesResult (Except.error e : Except ε Obj) = Except.error e :=
  ⟨rfl, rfl, rfl, rfl, rfl⟩

/-- C9: `getFeature` resolves with a feature exactly when the transport
resolves with a payload carrying a `feature` key; a transport rejection
is surfaced as the same rejection, and a resolved payload lacking the key
yields a resolution with `undefined` (`none`), with no validation. -/
theorem getFeature_failure_characterization (ε : Type) (tr : Except ε Obj) :
    ((∃ f, getFeatureResult tr = Except.ok (some f)) ↔
      (∃ resp f, tr = Except.ok resp ∧ objGet resp "feature" = some f)) ∧
    (∀ e, tr = Except.error e → getFeatureResult tr = Except.error e) ∧
    (∀ resp, tr = Except.ok resp → objGet resp "feature" = none →
      getFeatureResult tr = Except.ok none) := by
  cases tr with
  | error e =>
      refine ⟨?_, ?_, ?_⟩
      · constructor
        · rintro ⟨f, hf⟩
          exact Except.noConfusion hf
        · rintro ⟨resp, f, h, _⟩
          exact Except.noConfusion h
      · intro e' he
        injection he with h
        subst h
        rfl
      · intro resp h
        exact Except.noConfusion h
  | ok resp =>
      refine ⟨?_, ?_, ?_⟩
      · constructor
        · rintro ⟨f, hf⟩
          refine ⟨resp, f, rfl, ?_⟩
          injection hf with h
        · rintro ⟨resp', f, h, hf⟩
          injection h with h'
          subst h'
          exact ⟨f, by simp [getFeatureResult, Except.map, hf]⟩
      · intro e' he
        exact Except.noConfusion he
      · intro resp' h hn
        injection h with h'
        subst h'
        simp [getFeatureResult, Except.map, hn]

/-- C10: when the caller supplies a `params` object to `queryFeatures`
whose `where` or `outFields` is absent or falsy, the default is written
into the caller's own object (the nested mapping is not copied), so
after the call the object the caller passed in has been modified in
place. -/
theorem queryFeatures_mutates_caller_params (st : Store)
    (ro : IQueryFeaturesRequestOptions) (r : Nat)
    (hp : ro.params = some r) (hr : r < st.length) :
    (truthyOpt (objGet (getObj st r) "where") = false →
      objGet (getObj (queryFeatures st ro).1 r) "where"
        = some (JValue.str "1=1")) ∧
    (truthyOpt (objGet (getObj st r) "outFields") = false →
      objGet (getObj (queryFeatures st ro).1 r) "outFields"
        = some (JValue.str "*")) ∧
    ((truthyOpt (objGet (getObj st r) "where") = false ∨
      truthyOpt (objGet (getObj st r) "outFields") = false) →
      getObj (queryFeatures st ro).1 r ≠ getObj st r) := by
  have hcore := queryDefaultsCore_spec st r hr
  rw [queryFeatures_store_some st ro r hp]
  refine ⟨fun hW => ?_, fun hOF => ?_, fun hor heq => ?_⟩
  · rw [hcore.1]
    simp [hW]
  · rw [hcore.2]
    simp [hOF]
  · rcases hor with hW | hOF
    · have h1 : objGet (getObj (queryDefaultsCore st r) r) "where"
          = some (JValue.str "1=1") := by
        rw [hcore.1]
        simp [hW]
      rw [heq] at h1
      rw [h1] at hW
      exact absurd hW (by decide)
    · have h1 : objGet (getObj (queryDefaultsCore st r) r) "outFields"
          = some (JValue.str "*") := by
        rw [hcore.2]
        simp [hOF]
      rw [heq] at h1
      rw [h1] at hOF
      exact absurd hOF (by decide)

/-- Witness for `queryFeatures_mutates_caller_params`: the caller passes
an empty `params` object; after the call that object holds the default
`where` and is no longer equal to its old value. -/
theorem queryFeatures_mutates_caller_params_witness :
    objGet (getObj (queryFeatures [[]] { url := "U", params := some 0 }).1 0) "where"
      = some (JValue.str "1=1") ∧
    getObj (queryFeatures [[]] { url := "U", params := some 0 }).1 0
      ≠ getObj [[]] 0 := by
  have h := queryFeatures_mutates_caller_params [[]]
      { url := "U", params := some 0 } 0 rfl (by decide)
  exact ⟨h.1 (by decide), h.2.2 (Or.inl (by decide))⟩

end Features
